import Mathlib

set_option maxRecDepth 100000

/-!
# Verification of the poker-equity-analyzer presentation layer

Shallow embedding of the TypeScript presentation components of the
poker-equity-analyzer repository (`EquityHeatmap.tsx`, `EquityTrends.tsx`,
`KeyInsights.tsx`, the `Home` page in `layout.tsx`) together with the data
model of the persisted equity artifact, and proofs of the specification
claims about them.

Modelling conventions:
* JavaScript numbers are modelled as rationals (`ℚ`); `Number.prototype.toFixed(1)`
  is modelled by `toFixed1`, rounding to one decimal (ties away from zero for
  the non-negative values that occur here).
* JSON objects indexed by string keys are modelled as association lists
  (`List (String × _)`) with `List.lookup`; a JavaScript property access that
  may yield `undefined` becomes an `Option`, and a dereference of a possibly
  `undefined` value (which throws a `TypeError` in JavaScript) becomes a
  monadic bind in `Option`.
-/

/-- One sub-entry of the artifact, keyed by a `players_N` string: at minimum a
floating-point equity value (modelled as `ℚ`). -/
structure SubEntry where
  equity : ℚ
  deriving DecidableEq, Repr

/-- The per-hand object of the artifact: sub-entries keyed by table size
(`"players_2"` … `"players_6"`). -/
abbrev HandData := List (String × SubEntry)

/-- The persisted equity artifact: `hands` keyed by starting-hand label, plus
the metadata block (`num_simulations`). -/
structure Artifact where
  hands : List (String × HandData)
  num_simulations : ℕ
  deriving DecidableEq, Repr

/-! ## EquityHeatmap.tsx -/

/-- `const ranks = ["A","K","Q","J","T","9","8","7","6","5","4","3","2"]`. -/
def ranks : List String :=
  ["A", "K", "Q", "J", "T", "9", "8", "7", "6", "5", "4", "3", "2"]

/-- `getHandName(row, col)` from `EquityHeatmap.tsx`: pair on the diagonal,
suited above it, offsuit below it. -/
def getHandName (row col : ℕ) : String :=
  if row = col then
    ranks.getD row "" ++ ranks.getD col ""
  else if row < col then
    ranks.getD row "" ++ ranks.getD col "" ++ "s"
  else
    ranks.getD col "" ++ ranks.getD row "" ++ "o"

/-- `getEquity(hand)` from `EquityHeatmap.tsx`: `0` when the hand or the
`players_N` sub-entry is missing, otherwise `equity * 100`. -/
def getEquity (data : Artifact) (playerCount : ℕ) (hand : String) : ℚ :=
  match data.hands.lookup hand with
  | none => 0
  | some handData =>
    match handData.lookup ("players_" ++ toString playerCount) with
    | none => 0
    | some playerData => playerData.equity * 100

/-- The three dynamic thresholds (premium, strong, playable) chosen by
`getColor` for each player count; the final `else` branch is the 6-max one. -/
def getColorThresholds (playerCount : ℕ) : ℚ × ℚ × ℚ :=
  if playerCount = 2 then (50, 40, 30)
  else if playerCount = 3 then (40, 30, 22)
  else if playerCount = 4 then (35, 27, 20)
  else if playerCount = 5 then (30, 23, 17)
  else (27, 20, 15)

/-- `getColor(equity)` from `EquityHeatmap.tsx`: the cascade of ten
threshold comparisons selecting one of eleven Tailwind background classes. -/
def getColor (playerCount : ℕ) (equity : ℚ) : String :=
  let premiumThreshold := (getColorThresholds playerCount).1
  let strongThreshold := (getColorThresholds playerCount).2.1
  let playableThreshold := (getColorThresholds playerCount).2.2
  if equity ≥ premiumThreshold + 10 then "bg-emerald-600"
  else if equity ≥ premiumThreshold + 5 then "bg-emerald-500"
  else if equity ≥ premiumThreshold then "bg-green-500"
  else if equity ≥ strongThreshold + 5 then "bg-green-400"
  else if equity ≥ strongThreshold then "bg-lime-400"
  else if equity ≥ playableThreshold + 5 then "bg-yellow-400"
  else if equity ≥ playableThreshold then "bg-yellow-500"
  else if equity ≥ playableThreshold - 5 then "bg-orange-400"
  else if equity ≥ playableThreshold - 10 then "bg-orange-500"
  else if equity ≥ playableThreshold - 15 then "bg-red-400"
  else "bg-red-500"

/-- The ten branch cutoffs of `getColor`, in the order the branches are
tested (highest branch first). -/
def getColorCutoffs (playerCount : ℕ) : List ℚ :=
  let premiumThreshold := (getColorThresholds playerCount).1
  let strongThreshold := (getColorThresholds playerCount).2.1
  let playableThreshold := (getColorThresholds playerCount).2.2
  [premiumThreshold + 10, premiumThreshold + 5, premiumThreshold,
   strongThreshold + 5, strongThreshold,
   playableThreshold + 5, playableThreshold,
   playableThreshold - 5, playableThreshold - 10, playableThreshold - 15]

/-- The eleven fixed color classes `getColor` can return, ordered from the
coldest band (`bg-red-500`) up to the hottest (`bg-emerald-600`). -/
def colorClasses : List String :=
  ["bg-red-500", "bg-red-400", "bg-orange-500", "bg-orange-400",
   "bg-yellow-500", "bg-yellow-400", "bg-lime-400", "bg-green-400",
   "bg-green-500", "bg-emerald-500", "bg-emerald-600"]

/-- Band index of a color class, ordering the classes `bg-red-500` (0) up to
`bg-emerald-600` (10). -/
def colorIndex (c : String) : ℕ := colorClasses.indexOf c

/-- Model of `Number.prototype.toFixed(1)` on the rationals that stand in for
JavaScript numbers: round to one decimal place, ties rounded up. -/
def toFixed1 (q : ℚ) : ℚ := (⌊q * 10 + 1 / 2⌋ : ℚ) / 10

/-- The numeric value a heatmap cell (and its tooltip) displays for the cell
at `(row, col)`: `getEquity(getHandName(row,col)).toFixed(1)`. -/
def cellDisplay (data : Artifact) (playerCount row col : ℕ) : ℚ :=
  toFixed1 (getEquity data playerCount (getHandName row col))

example : getHandName 0 0 = "AA" := by decide
example : getHandName 0 1 = "AKs" := by decide
example : getHandName 1 0 = "AKo" := by decide
example : getHandName 12 12 = "22" := by decide
example : getColor 6 20 = "bg-lime-400" := by norm_num [getColor, getColorThresholds]
example : getColor 6 17 = "bg-yellow-500" := by norm_num [getColor, getColorThresholds]

/-! ## Spec-side hand labelling (refinement targets for the heatmap labels) -/

/-- Spec-side label of a heatmap cell, written from the spec's words: the
higher rank (the smaller index into the descending `ranks` array) is listed
first; the suffix is empty for a pair, `"s"` above the diagonal and `"o"`
below it. -/
def specHandName (r c : Fin 13) : String :=
  if r = c then ranks.getD r.val "" ++ ranks.getD r.val ""
  else
    ranks.getD (min r.val c.val) "" ++ ranks.getD (max r.val c.val) ""
      ++ (if r.val < c.val then "s" else "o")

/-- The 13 canonical pocket-pair labels. -/
def pairLabels : List String := ranks.map fun x => x ++ x

/-- The 78 canonical suited labels (two distinct ranks, higher first, "s"). -/
def suitedLabels : List String :=
  (List.finRange 13).flatMap fun i =>
    ((List.finRange 13).filter fun j => i < j).map fun j =>
      ranks.getD i.val "" ++ ranks.getD j.val "" ++ "s"

/-- The 78 canonical offsuit labels (two distinct ranks, higher first, "o"). -/
def offsuitLabels : List String :=
  (List.finRange 13).flatMap fun i =>
    ((List.finRange 13).filter fun j => i < j).map fun j =>
      ranks.getD i.val "" ++ ranks.getD j.val "" ++ "o"

/-- All 169 canonical starting-hand class labels. -/
def canonicalLabels : List String := pairLabels ++ suitedLabels ++ offsuitLabels

/-- The 169 labels the heatmap grid renders, row-major. -/
def gridLabels : List String :=
  (List.finRange 13).flatMap fun r =>
    (List.finRange 13).map fun c => getHandName r.val c.val

example : gridLabels.length = 169 := by decide
example : canonicalLabels.length = 169 := by decide

/-! ## EquityTrends.tsx -/

/-- `handCategories` from `EquityTrends.tsx`. -/
def handCategories : List (String × List String) :=
  [("Premium Pairs", ["AA", "KK", "QQ"]),
   ("High Cards", ["AKs", "AQs", "AJs", "KQs"]),
   ("Mid Pairs", ["JJ", "TT", "99", "88"]),
   ("Suited Connectors", ["JTs", "T9s", "98s", "87s"])]

/-- The guarded double lookup `data.hands[hand]` / `handData[players_N]`
(the `handData && handData[...]` truthiness test: objects are truthy, a
missing property is `undefined`, i.e. `none`). -/
def entryFor (data : Artifact) (players : ℕ) (hand : String) : Option SubEntry :=
  (data.hands.lookup hand).bind fun handData =>
    handData.lookup ("players_" ++ toString players)

/-- The `sum`/`count` accumulation of the `hands.forEach` loop in
`EquityTrends.tsx` (both in `chartData` and in `categoryAverages`). -/
def accumulate (data : Artifact) (players : ℕ) (hands : List String) : ℚ × ℕ :=
  hands.foldl
    (fun acc hand =>
      match entryFor data players hand with
      | some playerData => (acc.1 + playerData.equity * 100, acc.2 + 1)
      | none => acc)
    (0, 0)

/-- `chartData` from `EquityTrends.tsx`: one point per players value 2…6;
per category the value is `(sum/count).toFixed(1)` when `count > 0`, else the
number `0` (the numeric content of the produced string is modelled). -/
def chartData (data : Artifact) : List (ℕ × List (String × ℚ)) :=
  [2, 3, 4, 5, 6].map fun players =>
    (players,
     handCategories.map fun cat =>
       let sc := accumulate data players cat.2
       (cat.1, if 0 < sc.2 then toFixed1 (sc.1 / (sc.2 : ℚ)) else 0))

/-- `categoryAverages` from `EquityTrends.tsx` (6-max as reference). -/
def categoryAverages (data : Artifact) : List (String × ℚ) :=
  handCategories.map fun cat =>
    let sc := accumulate data 6 cat.2
    (cat.1, if 0 < sc.2 then sc.1 / (sc.2 : ℚ) else 0)

/-- The comparator `(a, b) => b.avgEquity - a.avgEquity` of the in-place
`.sort(...)`: `a` stays before `b` exactly when the result is `≤ 0`,
i.e. `b.avgEquity ≤ a.avgEquity` (descending, stable). -/
def sortAvgsLe (a b : String × ℚ) : Bool := decide (b.2 ≤ a.2)

/-- `sortedCategories` from `EquityTrends.tsx`: the category names after the
in-place descending sort of `categoryAverages`. -/
def sortedCategories (data : Artifact) : List String :=
  ((categoryAverages data).mergeSort sortAvgsLe).map Prod.fst

/-! ## KeyInsights.tsx -/

/-- All the per-hand constants `KeyInsights` computes from `data` before
building its `insights` array, in source order. -/
structure KeyInsightValues where
  aa_hu : ℚ
  aa_6max : ℚ
  aa_drop : ℚ
  aks_equity : ℚ
  ako_equity : ℚ
  suited_bonus : ℚ
  kk_hu : ℚ
  kk_6max : ℚ
  jj_equity : ℚ
  tt_equity : ℚ
  aks_hu_equity : ℚ
  aks_6max_equity : ℚ
  a2s_equity : ℚ
  a2o_equity : ℚ
  _22_hu : ℚ
  _22_6max : ℚ
  qq_equity : ℚ
  ajo_equity : ℚ
  kqs_equity : ℚ
  _77_equity : ℚ
  ak_equity : ℚ
  jts_equity : ℚ
  aqo_equity : ℚ
  deriving DecidableEq

/-- The unguarded double dereference `data.hands[hand][key]` that
`KeyInsights` performs for each of its constants. -/
def handEntry (data : Artifact) (hand key : String) : Option SubEntry :=
  (data.hands.lookup hand).bind fun handData => handData.lookup key

/-- The straight-line dereference sequence at the top of `KeyInsights`, in
source order: every `data.hands[H][players_N].equity` access is unguarded,
so a missing hand or table-size entry makes the evaluation throw a
`TypeError`; the whole evaluation is therefore `none` unless every
dereferenced entry is present. -/
def keyInsightsCore (data : Artifact) : Option KeyInsightValues :=
  match handEntry data "AA" "players_2", handEntry data "AA" "players_6",
        handEntry data "AKs" "players_6", handEntry data "AKo" "players_6",
        handEntry data "KK" "players_2", handEntry data "KK" "players_6",
        handEntry data "JJ" "players_6", handEntry data "TT" "players_6",
        handEntry data "AKs" "players_2", handEntry data "AKs" "players_6",
        handEntry data "A2s" "players_6", handEntry data "A2o" "players_6",
        handEntry data "22" "players_2", handEntry data "22" "players_6",
        handEntry data "QQ" "players_6", handEntry data "AJo" "players_6",
        handEntry data "KQs" "players_6", handEntry data "77" "players_6",
        handEntry data "AKo" "players_6", handEntry data "JTs" "players_6",
        handEntry data "AQo" "players_6" with
  | some aaHu, some aa6, some aksData, some akoData, some kkHu, some kk6,
    some jjData, some ttData, some aksDataHu, some aksData6max, some a2sData,
    some a2oData, some d22Hu, some d226max, some qqData, some ajoData,
    some kqsData, some d77, some akData, some jtsData, some aqoData =>
    some ⟨aaHu.equity * 100, aa6.equity * 100,
          aaHu.equity * 100 - aa6.equity * 100,
          aksData.equity * 100, akoData.equity * 100,
          aksData.equity * 100 - akoData.equity * 100,
          kkHu.equity * 100, kk6.equity * 100,
          jjData.equity * 100, ttData.equity * 100,
          aksDataHu.equity * 100, aksData6max.equity * 100,
          a2sData.equity * 100, a2oData.equity * 100,
          d22Hu.equity * 100, d226max.equity * 100,
          qqData.equity * 100, ajoData.equity * 100, kqsData.equity * 100,
          d77.equity * 100, akData.equity * 100,
          jtsData.equity * 100, aqoData.equity * 100⟩
  | _, _, _, _, _, _, _, _, _, _, _, _, _, _, _, _, _, _, _, _, _ => none

/-- `aa_drop` of `KeyInsights` (lines 13–16): `aa_hu - aa_6max`, both read
through unguarded dereferences of the `"AA"` entry. -/
def aaDrop (data : Artifact) : Option ℚ :=
  (handEntry data "AA" "players_2").bind fun aaHu =>
    (handEntry data "AA" "players_6").bind fun aa6 =>
      some (aaHu.equity * 100 - aa6.equity * 100)

/-- The titles of the nine entries of the `insights` array of
`KeyInsights.tsx`, in order. -/
def insightTitles : List String :=
  ["Premium Pairs Lose Value Multi-Way",
   "Suited Cards Add Value",
   "Position is Power",
   "Small Pairs Need Deep Stacks",
   "KK Still Dominates Most Hands",
   "AK Suffers More Than Pairs",
   "Mid Pairs Competitive with Big Cards",
   "Suited Connectors vs Offsuit Broadway",
   "Drawing Hands Improve Multiway"]

/-- `nextInsight`: `(prev + 1) % insights.length`. -/
def nextInsight (i : ℕ) : ℕ := (i + 1) % insightTitles.length

/-- `prevInsight`: `(prev - 1 + insights.length) % insights.length` (on the
in-range indices `0 ≤ i < length` the JavaScript value `i - 1 + length` is
the natural number `i + length - 1`). -/
def prevInsight (i : ℕ) : ℕ :=
  (i + insightTitles.length - 1) % insightTitles.length

/-! ## The Home page (`layout.tsx`) -/

/-- The two state hooks of `Home`: `equityData` (initially `null`) and
`loading` (initially `true`). A successfully parsed JSON `null` payload is
`payload none`; a truthy artifact payload is `payload (some d)`. -/
structure HomeState where
  equityData : Option Artifact
  loading : Bool
  deriving DecidableEq

/-- `useState(null)` / `useState(true)`. -/
def initialHomeState : HomeState := ⟨none, true⟩

/-- Outcome of `fetch("/api/equity").then(res => res.json())`: `ok` carries a
successfully received payload; `err` is a rejected fetch promise or
unparseable JSON body. -/
inductive FetchResult where
  | ok (payload : Option Artifact)
  | err
  deriving DecidableEq

/-- The effect of the promise handlers on the component state: on success
`setEquityData(data); setLoading(false)`; the `.catch` handler only runs
`setLoading(false)`. -/
def handleFetch (s : HomeState) : FetchResult → HomeState
  | .ok payload => { s with equityData := payload, loading := false }
  | .err => { s with loading := false }

/-- What `Home` renders. -/
inductive HomeView where
  | loadingView
  | failedView
  | dataView (d : Artifact)
  deriving DecidableEq

/-- The early returns of `Home`: the loading screen while `loading`, the
`"Failed to load equity data"` screen when `!equityData`, and the data view
otherwise. -/
def renderHome (s : HomeState) : HomeView :=
  if s.loading then .loadingView
  else
    match s.equityData with
    | none => .failedView
    | some d => .dataView d

/-! ## Heap model for the frame property

The components receive `data` by reference; `EquityTrends` additionally
allocates a derived `categoryAverages` array and sorts it in place
(`Array.prototype.sort` mutates its receiver). To state that rendering
leaves the artifact unchanged, evaluation is modelled over a small heap of
addressed JavaScript values: reads look addresses up, the in-place sort is
a write to the address of the freshly allocated derived array. -/

/-- A heap-allocated JavaScript value: the artifact object or a derived
`categoryAverages` array. -/
inductive HeapVal where
  | artifact (d : Artifact)
  | avgArr (l : List (String × ℚ))
  deriving DecidableEq

/-- A heap: addressed values. -/
abbrev Heap := List (ℕ × HeapVal)

/-- Read an address. -/
def heapGet : Heap → ℕ → Option HeapVal
  | [], _ => none
  | p :: t, a => if p.1 = a then some p.2 else heapGet t a

/-- Overwrite an address in place. -/
def heapSet (h : Heap) (a : ℕ) (v : HeapVal) : Heap :=
  h.map fun p => if p.1 = a then (a, v) else p

/-- An address not yet used by the heap. -/
def freshAddr (h : Heap) : ℕ := h.foldr (fun p m => max (p.1 + 1) m) 0

/-- Heap-level evaluation of the `EquityTrends` body: read the artifact,
allocate the derived `categoryAverages` array, sort it in place (the write
goes to the fresh address, never to `dataAddr`), and return
`sortedCategories`. -/
def equityTrendsRender (h : Heap) (dataAddr : ℕ) : Option (List String) × Heap :=
  match heapGet h dataAddr with
  | some (.artifact d) =>
    let addr := freshAddr h
    let h1 := (addr, HeapVal.avgArr (categoryAverages d)) :: h
    let sorted := (categoryAverages d).mergeSort sortAvgsLe
    let h2 := heapSet h1 addr (HeapVal.avgArr sorted)
    (some (sorted.map Prod.fst), h2)
  | _ => (none, h)

/-- Heap-level evaluation of the `EquityHeatmap` grid: pure reads of the
artifact (the 13×13 equity values), no allocation, no write. -/
def equityHeatmapRender (h : Heap) (dataAddr playerCount : ℕ) :
    Option (List (List ℚ)) × Heap :=
  ((heapGet h dataAddr).bind fun v =>
    match v with
    | .artifact d =>
      some ((List.finRange 13).map fun r =>
        (List.finRange 13).map fun c =>
          getEquity d playerCount (getHandName r.val c.val))
    | _ => none,
   h)

/-- Heap-level evaluation of the `KeyInsights` constants: pure reads of the
artifact, no allocation, no write. -/
def keyInsightsRender (h : Heap) (dataAddr : ℕ) :
    Option KeyInsightValues × Heap :=
  ((heapGet h dataAddr).bind fun v =>
    match v with
    | .artifact d => keyInsightsCore d
    | _ => none,
   h)

/-! ## The generated artifact (spec-modelled) -/

/-- The `"AA"` equity the artifact records for table size `n`. -/
def aaEquityAt (data : Artifact) (n : ℕ) : Option ℚ :=
  (handEntry data "AA" ("players_" ++ toString n)).map fun e => e.equity

/-- Modelled from the spec: the artifact generator (the repository's Python
Monte Carlo scripts and the persisted `equity_cache.json`) is not under
`src/`; per §4.4/§8 a well-formed generation run populates every cell, and
per §8 ("Monotonicity sanity check") pocket pair `"AA"` equity strictly
decreases as table size increases from 2 to 6. -/
def specGeneratedAA (data : Artifact) : Prop :=
  (∀ n ∈ [2, 3, 4, 5, 6], (aaEquityAt data n).isSome = true) ∧
  ∀ n1 ∈ [2, 3, 4, 5, 6], ∀ n2 ∈ [2, 3, 4, 5, 6], n1 < n2 →
    ∀ q1 q2 : ℚ, aaEquityAt data n1 = some q1 → aaEquityAt data n2 = some q2 →
      q2 < q1

/-! ## Helper lemmas -/

/-- A successful association-list lookup exhibits a member of the list. -/
theorem lookup_mem {β : Type} {l : List (String × β)} {k : String} {b : β}
    (h : l.lookup k = some b) : (k, b) ∈ l := by
  induction l with
  | nil => simp [List.lookup] at h
  | cons p t ih =>
    rw [List.lookup] at h
    rcases hbeq : (k == p.1) with _ | _
    · rw [hbeq] at h
      exact List.mem_cons_of_mem _ (ih h)
    · rw [hbeq] at h
      obtain rfl : p.2 = b := by simpa using h
      obtain rfl : k = p.1 := eq_of_beq hbeq
      exact List.mem_cons_self _ _

/-- A sample artifact with a complete, strictly decreasing `"AA"` row. -/
def sampleArtifact : Artifact :=
  { hands :=
      [("AA",
        [("players_2", ⟨17/20⟩), ("players_3", ⟨73/100⟩),
         ("players_4", ⟨16/25⟩), ("players_5", ⟨14/25⟩),
         ("players_6", ⟨1/2⟩)])],
    num_simulations := 100000 }

/-- An artifact whose `hands` object is empty. -/
def noHandsArtifact : Artifact := { hands := [], num_simulations := 100000 }

/-! ## Claims -/

/-- Claim C3: for every row and column index of the 13×13 grid,
`getHandName` produces the standard label — the rank pair for the diagonal
and, off the diagonal, the two ranks in descending rank order (the smaller
index into the descending `ranks` array first) followed by `"s"` above the
diagonal and `"o"` below it; `specHandName` is that spec-side reading. -/
theorem C3_getHandName_standard_labels :
    ∀ r c : Fin 13, getHandName r.val c.val = specHandName r c := by decide

/-- Claim C8: the `insights` carousel of `KeyInsights` has exactly 9
entries, and on every index in `{0, …, 8}` `nextInsight` and `prevInsight`
are mutually inverse and stay inside `{0, …, 8}`. -/
theorem C8_carousel_round_trip :
    insightTitles.length = 9 ∧ ∀ i : Fin 9,
      nextInsight (prevInsight i.val) = i.val ∧
      prevInsight (nextInsight i.val) = i.val ∧
      nextInsight i.val < 9 ∧ prevInsight i.val < 9 := by decide

/-- Claim C1 (failing input): on an artifact whose `hands` object is empty —
so the `"AA"` entry is missing — `EquityHeatmap.getEquity` returns 0 and
`EquityTrends` excludes the missing hands from its category averages (count
0), exactly as the claim demands, but the unguarded dereference sequence of
`KeyInsights` does not evaluate to a value: it throws (`none` in the
model) instead of treating the missing cell as zero/unknown. -/
theorem C1_keyInsights_throws_on_missing_hand :
    keyInsightsCore noHandsArtifact = none
    ∧ getEquity noHandsArtifact 6 "AA" = 0
    ∧ (accumulate noHandsArtifact 6 ["AA", "KK", "QQ"]).2 = 0 := by
  exact ⟨rfl, rfl, rfl⟩

/-- Claim C2: a fetch failure leaves `loading = false` and
`equityData = null`, so `Home` renders the `"Failed to load equity data"`
degraded state and not the data view; the data view appears only for a
successfully received truthy payload. -/
theorem C2_fetch_failure_renders_degraded_state :
    (handleFetch initialHomeState .err).loading = false
    ∧ (handleFetch initialHomeState .err).equityData = none
    ∧ renderHome (handleFetch initialHomeState .err) = .failedView
    ∧ (∀ r : FetchResult, ∀ d : Artifact,
        renderHome (handleFetch initialHomeState r) = .dataView d →
        r = .ok (some d)) := by
  refine ⟨rfl, rfl, rfl, ?_⟩
  intro r d h
  cases r with
  | ok payload =>
    cases payload with
    | none => simp [renderHome, handleFetch, initialHomeState] at h
    | some d' =>
      obtain rfl : d' = d := by
        simpa [renderHome, handleFetch, initialHomeState] using h
      rfl
  | err => simp [renderHome, handleFetch, initialHomeState] at h

/-- Claim C2 witness: on the error outcome the degraded state is rendered,
and the only fetch result rendering the sample artifact's data view is the
successful payload carrying it. -/
theorem C2_witness :
    renderHome (handleFetch initialHomeState .err) = .failedView
    ∧ FetchResult.ok (some sampleArtifact) = .ok (some sampleArtifact) :=
  ⟨C2_fetch_failure_renders_degraded_state.2.2.1,
   C2_fetch_failure_renders_degraded_state.2.2.2
     (.ok (some sampleArtifact)) sampleArtifact rfl⟩

/-- Claim C4: `getHandName` is injective on the 169 grid cells; the grid's
labels are pairwise distinct and are a permutation of the 169 canonical
class labels (13 pairs, 78 suited, 78 offsuit), with `"AA"` at the top-left
cell, `"22"` at the bottom-right cell, pair labels on the diagonal, suited
labels strictly above it and offsuit labels strictly below it — so the
rendered heatmap displays every class exactly once. -/
theorem C4_getHandName_injective_and_image :
    (∀ p q : Fin 13 × Fin 13,
        getHandName p.1.val p.2.val = getHandName q.1.val q.2.val → p = q)
    ∧ gridLabels.Nodup
    ∧ gridLabels.Perm canonicalLabels
    ∧ pairLabels.length = 13 ∧ suitedLabels.length = 78
    ∧ offsuitLabels.length = 78
    ∧ getHandName 0 0 = "AA" ∧ getHandName 12 12 = "22"
    ∧ ∀ r c : Fin 13,
        (r = c → getHandName r.val c.val ∈ pairLabels) ∧
        (r < c → getHandName r.val c.val ∈ suitedLabels) ∧
        (c < r → getHandName r.val c.val ∈ offsuitLabels) := by
  have hmap : gridLabels
      = ((List.finRange 13).product (List.finRange 13)).map
          (fun p => getHandName p.1.val p.2.val) := by decide
  have hnodup : gridLabels.Nodup := by decide
  refine ⟨?_, hnodup, by decide, by decide, by decide, by decide,
    by decide, by decide, by decide⟩
  intro p q hpq
  have hnodup' : (((List.finRange 13).product (List.finRange 13)).map
      (fun p => getHandName p.1.val p.2.val)).Nodup := hmap ▸ hnodup
  have hp : p ∈ (List.finRange 13).product (List.finRange 13) := by
    obtain ⟨p1, p2⟩ := p
    exact List.mem_product.mpr ⟨List.mem_finRange _, List.mem_finRange _⟩
  have hq : q ∈ (List.finRange 13).product (List.finRange 13) := by
    obtain ⟨q1, q2⟩ := q
    exact List.mem_product.mpr ⟨List.mem_finRange _, List.mem_finRange _⟩
  exact List.inj_on_of_nodup_map hnodup' hp hq hpq

/-- All equity values stored in an artifact lie in `[0, 1]` (the artifact
well-formedness assumption of §6). -/
def equitiesInRange (data : Artifact) : Prop :=
  ∀ p ∈ data.hands, ∀ q ∈ p.2, 0 ≤ q.2.equity ∧ q.2.equity ≤ 1

/-- Claim C5: when the selected hand and its `players_N` sub-entry exist,
`getEquity` is exactly `equity * 100` and the cell/tooltip display is that
value formatted to one decimal; the sub-entry key read is always one of
`"players_2"` … `"players_6"`; and with artifact equities in `[0, 1]` every
`getEquity` value lies in `[0, 100]`. -/
theorem C5_getEquity_exact_value (data : Artifact) (pc : ℕ) (hand : String)
    (handData : HandData) (playerData : SubEntry)
    (hpc : pc ∈ [2, 3, 4, 5, 6])
    (hh : data.hands.lookup hand = some handData)
    (hp : handData.lookup ("players_" ++ toString pc) = some playerData) :
    getEquity data pc hand = playerData.equity * 100
    ∧ (∀ row col : ℕ, getHandName row col = hand →
        cellDisplay data pc row col = toFixed1 (playerData.equity * 100))
    ∧ ("players_" ++ toString pc)
        ∈ ["players_2", "players_3", "players_4", "players_5", "players_6"]
    ∧ (equitiesInRange data →
        ∀ h' : String, 0 ≤ getEquity data pc h' ∧ getEquity data pc h' ≤ 100) := by
  have hval : getEquity data pc hand = playerData.equity * 100 := by
    simp [getEquity, hh, hp]
  refine ⟨hval, ?_, ?_, ?_⟩
  · intro row col hrc
    simp [cellDisplay, hrc, hval]
  · fin_cases hpc <;> decide
  · intro hir h'
    rcases hh' : data.hands.lookup h' with _ | hd
    · simp [getEquity, hh']
    · rcases hp' : hd.lookup ("players_" ++ toString pc) with _ | pd
      · simp [getEquity, hh', hp']
      · have h1 := hir _ (lookup_mem hh') _ (lookup_mem hp')
        simp only [] at h1
        simp only [getEquity, hh', hp']
        constructor <;> nlinarith [h1.1, h1.2]

/-- Claim C5 witness: on the sample artifact at 6 players, `"AA"` shows
`0.5 * 100` and all values are within bounds. -/
theorem C5_witness :
    getEquity sampleArtifact 6 "AA" = (1/2 : ℚ) * 100
    ∧ 0 ≤ getEquity sampleArtifact 6 "72o" ∧ getEquity sampleArtifact 6 "72o" ≤ 100 := by
  have h := C5_getEquity_exact_value sampleArtifact 6 "AA"
    [("players_2", ⟨17/20⟩), ("players_3", ⟨73/100⟩),
     ("players_4", ⟨16/25⟩), ("players_5", ⟨14/25⟩), ("players_6", ⟨1/2⟩)]
    ⟨1/2⟩ (by decide) rfl rfl
  refine ⟨h.1, h.2.2.2 ?_ "72o"⟩
  intro p hp q hq
  simp only [sampleArtifact, List.mem_cons, List.not_mem_nil, or_false] at hp
  subst hp
  simp only [List.mem_cons, List.not_mem_nil, or_false] at hq
  rcases hq with rfl | rfl | rfl | rfl | rfl <;> norm_num

/-- A readable address is below the fresh address. -/
theorem heapGet_some_lt_freshAddr {h : Heap} {a : ℕ} {v : HeapVal}
    (hg : heapGet h a = some v) : a < freshAddr h := by
  induction h with
  | nil => simp [heapGet] at hg
  | cons p t ih =>
    simp only [heapGet] at hg
    simp only [freshAddr, List.foldr] at *
    by_cases hpa : p.1 = a
    · subst hpa
      exact lt_of_lt_of_le (Nat.lt_succ_self p.1) (Nat.le_max_left _ _)
    · rw [if_neg hpa] at hg
      exact lt_of_lt_of_le (ih hg) (Nat.le_max_right _ _)

/-- Writing one address leaves every other address unchanged. -/
theorem heapGet_heapSet_ne {h : Heap} {a b : ℕ} {v : HeapVal} (hne : b ≠ a) :
    heapGet (heapSet h b v) a = heapGet h a := by
  induction h with
  | nil => rfl
  | cons p t ih =>
    by_cases hpb : p.1 = b <;> by_cases hpa : p.1 = a <;>
      simp_all [heapGet, heapSet]

/-- A fresh allocation leaves every existing address unchanged. -/
theorem heapGet_cons_ne {h : Heap} {a b : ℕ} {v : HeapVal} (hne : b ≠ a) :
    heapGet ((b, v) :: h) a = heapGet h a := by
  simp [heapGet, hne]

/-- Claim C6: rendering leaves the artifact unchanged: the `EquityTrends`
evaluation — including the in-place sort, which writes only to the address
of its freshly allocated `categoryAverages` array — preserves the value at
the artifact's address, and the `EquityHeatmap` and `KeyInsights`
evaluations perform reads only, returning the heap as received. -/
theorem C6_render_preserves_artifact :
    ∀ (h : Heap) (a pc : ℕ) (d : Artifact),
      heapGet h a = some (.artifact d) →
      heapGet (equityTrendsRender h a).2 a = some (.artifact d)
      ∧ (equityHeatmapRender h a pc).2 = h
      ∧ (keyInsightsRender h a).2 = h := by
  intro h a pc d hg
  refine ⟨?_, rfl, rfl⟩
  have hfresh : a < freshAddr h := heapGet_some_lt_freshAddr hg
  simp only [equityTrendsRender, hg]
  rw [heapGet_heapSet_ne (by omega), heapGet_cons_ne (by omega)]
  exact hg

/-- Claim C6 witness: on a one-cell heap holding the sample artifact, all
three renders leave the artifact slot intact. -/
theorem C6_witness :
    heapGet (equityTrendsRender [(0, .artifact sampleArtifact)] 0).2 0
      = some (.artifact sampleArtifact)
    ∧ (equityHeatmapRender [(0, .artifact sampleArtifact)] 0 6).2
      = [(0, .artifact sampleArtifact)]
    ∧ (keyInsightsRender [(0, .artifact sampleArtifact)] 0).2
      = [(0, .artifact sampleArtifact)] :=
  C6_render_preserves_artifact [(0, .artifact sampleArtifact)] 0 6
    sampleArtifact rfl

/-- Claim C7: under the spec-modelled generation guarantee for the `"AA"`
row, equity strictly decreases across every pair of table sizes
`N1 < N2` in `{2, …, 6}`, and in particular the `aa_drop` value `KeyInsights`
computes (heads-up minus 6-max) exists and is positive. -/
theorem C7_aa_equity_strictly_decreases (data : Artifact)
    (hgen : specGeneratedAA data) :
    (∀ n1 ∈ [2, 3, 4, 5, 6], ∀ n2 ∈ [2, 3, 4, 5, 6], n1 < n2 →
      ∀ q1 q2 : ℚ, aaEquityAt data n1 = some q1 →
        aaEquityAt data n2 = some q2 → q2 < q1)
    ∧ ∃ v : ℚ, aaDrop data = some v ∧ 0 < v := by
  obtain ⟨hcomp, hmono⟩ := hgen
  refine ⟨hmono, ?_⟩
  have h2 := hcomp 2 (by norm_num)
  have h6 := hcomp 6 (by norm_num)
  obtain ⟨q2, hq2⟩ := Option.isSome_iff_exists.mp h2
  obtain ⟨q6, hq6⟩ := Option.isSome_iff_exists.mp h6
  have hlt : q6 < q2 :=
    hmono 2 (by norm_num) 6 (by norm_num) (by norm_num) q2 q6 hq2 hq6
  obtain ⟨e2, he2, he2v⟩ := Option.map_eq_some'.mp hq2
  obtain ⟨e6, he6, he6v⟩ := Option.map_eq_some'.mp hq6
  have hk2 : ("players_" ++ toString (2 : ℕ)) = "players_2" := by decide
  have hk6 : ("players_" ++ toString (6 : ℕ)) = "players_6" := by decide
  rw [hk2] at he2
  rw [hk6] at he6
  refine ⟨e2.equity * 100 - e6.equity * 100, ?_, ?_⟩
  · simp [aaDrop, he2, he6]
  · subst he2v
    subst he6v
    nlinarith [hlt]

/-- Claim C7 witness: the sample artifact satisfies the spec-modelled
guarantee, so its `aa_drop` exists and is positive. -/
theorem C7_witness :
    ∃ v : ℚ, aaDrop sampleArtifact = some v ∧ 0 < v := by
  have hgen : specGeneratedAA sampleArtifact := by
    constructor
    · intro n hn
      fin_cases hn <;> rfl
    · have e2 : aaEquityAt sampleArtifact 2 = some (17/20) := rfl
      have e3 : aaEquityAt sampleArtifact 3 = some (73/100) := rfl
      have e4 : aaEquityAt sampleArtifact 4 = some (16/25) := rfl
      have e5 : aaEquityAt sampleArtifact 5 = some (14/25) := rfl
      have e6 : aaEquityAt sampleArtifact 6 = some (1/2) := rfl
      intro n1 h1 n2 h2 hlt q1 q2 hq1 hq2
      fin_cases h1 <;> fin_cases h2 <;>
        first
        | omega
        | (simp only [e2, e3, e4, e5, e6, Option.some.injEq] at hq1 hq2
           subst hq1
           subst hq2
           norm_num)
  exact (C7_aa_equity_strictly_decreases sampleArtifact hgen).2

/-! ## First-match colour selection (for the colour-band claim) -/

/-- First-match selection over a list of (cutoff, class) pairs, the shape of
`getColor`'s cascade of `if (equity >= cutoff) return class` branches. -/
def pickColor : List (ℚ × String) → String → ℚ → String
  | [], dflt, _ => dflt
  | (c, s) :: rest, dflt, e => if e ≥ c then s else pickColor rest dflt e

/-- `getColor` is the first-match selection over its cutoffs paired with the
classes from hottest to coldest. -/
theorem getColor_eq_pickColor (pc : ℕ) (e : ℚ) :
    getColor pc e
      = pickColor ((getColorCutoffs pc).zip colorClasses.reverse) "bg-red-500" e := rfl

/-- The classes of the cascade, in branch order. -/
theorem snd_zip_cutoffs (pc : ℕ) :
    ((getColorCutoffs pc).zip colorClasses.reverse).map Prod.snd
      = ["bg-emerald-600", "bg-emerald-500", "bg-green-500", "bg-green-400",
         "bg-lime-400", "bg-yellow-400", "bg-yellow-500", "bg-orange-400",
         "bg-orange-500", "bg-red-400"] := rfl

/-- The band indices of the cascade's classes, in branch order, ending with
the default class. -/
theorem idx_zip_cutoffs (pc : ℕ) :
    ((getColorCutoffs pc).zip colorClasses.reverse).map (fun p => colorIndex p.2)
      ++ [colorIndex "bg-red-500"]
      = [10, 9, 8, 7, 6, 5, 4, 3, 2, 1, 0] := rfl

/-- The first match is one of the listed classes or the default. -/
theorem pickColor_mem (l : List (ℚ × String)) (dflt : String) (e : ℚ) :
    pickColor l dflt e ∈ l.map Prod.snd ++ [dflt] := by
  induction l with
  | nil => simp [pickColor]
  | cons p t ih =>
    obtain ⟨c, s⟩ := p
    simp only [pickColor]
    by_cases hc : e ≥ c
    · simp [hc]
    · simp only [if_neg hc, List.map_cons, List.cons_append, List.mem_cons]
      right
      exact ih

/-- When the class band indices are non-increasing along the branch order,
first-match selection is monotone in the equity, whatever the cutoffs. -/
theorem pickColor_mono (l : List (ℚ × String)) (dflt : String)
    (hs : (l.map (fun p => colorIndex p.2) ++ [colorIndex dflt]).Sorted (· ≥ ·))
    {e1 e2 : ℚ} (h12 : e1 ≤ e2) :
    colorIndex (pickColor l dflt e1) ≤ colorIndex (pickColor l dflt e2) := by
  induction l with
  | nil => simp [pickColor]
  | cons p t ih =>
    obtain ⟨c, s⟩ := p
    simp only [List.map_cons, List.cons_append, List.sorted_cons] at hs
    obtain ⟨hhead, htail⟩ := hs
    simp only [pickColor]
    by_cases h2 : e2 ≥ c
    · rw [if_pos h2]
      by_cases h1 : e1 ≥ c
      · rw [if_pos h1]
      · rw [if_neg h1]
        have hm := pickColor_mem t dflt e1
        refine hhead _ ?_
        rcases List.mem_append.mp hm with hcase | hcase
        · obtain ⟨q, hq, hqe⟩ := List.mem_map.mp hcase
          exact List.mem_append.mpr (Or.inl (List.mem_map.mpr ⟨q, hq, by rw [hqe]⟩))
        · simp only [List.mem_singleton] at hcase
          rw [hcase]
          exact List.mem_append.mpr (Or.inr (List.mem_singleton.mpr rfl))
    · have h1 : ¬ e1 ≥ c := fun hc => h2 (le_trans hc h12)
      rw [if_neg h1, if_neg h2]
      exact ih htail

/-- Claim C9 counterexample: for 6 players the ten branch cutoffs of
`getColor` are `[37, 32, 27, 25, 20, 20, 15, 10, 5, 0]` — the strong
threshold (20) equals playable + 5 (20) — so they are not a strictly
decreasing sequence, refuting the claim as stated. -/
theorem C9_counterexample : ¬ (getColorCutoffs 6).Chain' (· > ·) := by
  have hl : getColorCutoffs 6 = [37, 32, 27, 25, 20, 20, 15, 10, 5, 0] := by
    norm_num [getColorCutoffs, getColorThresholds]
  rw [hl]
  intro hch
  simp only [List.chain'_cons, List.chain'_singleton] at hch
  norm_num at hch

/-- Claim C9 (amended): for every player count in `{2, …, 6}`, `getColor` is
total into its 11 fixed classes and the band index is a monotone step
function of the equity; the ten branch cutoffs are strictly decreasing for
player counts 2–5, and non-increasing (with one repeated value, 20) for 6
players. -/
theorem C9_amended_color_bands :
    ∀ pc ∈ [2, 3, 4, 5, 6],
      (∀ e : ℚ, getColor pc e ∈ colorClasses)
      ∧ (∀ e1 e2 : ℚ, e1 ≤ e2 →
          colorIndex (getColor pc e1) ≤ colorIndex (getColor pc e2))
      ∧ (pc ≠ 6 → (getColorCutoffs pc).Chain' (· > ·))
      ∧ (pc = 6 → (getColorCutoffs pc).Chain' (· ≥ ·)) := by
  intro pc hpc
  refine ⟨?_, ?_, ?_, ?_⟩
  · intro e
    have h := pickColor_mem ((getColorCutoffs pc).zip colorClasses.reverse) "bg-red-500" e
    rw [snd_zip_cutoffs] at h
    rw [getColor_eq_pickColor]
    have himp : ∀ x ∈ (["bg-emerald-600", "bg-emerald-500", "bg-green-500",
        "bg-green-400", "bg-lime-400", "bg-yellow-400", "bg-yellow-500",
        "bg-orange-400", "bg-orange-500", "bg-red-400"] ++ ["bg-red-500"] :
        List String), x ∈ colorClasses := by decide
    exact himp _ h
  · intro e1 e2 h12
    rw [getColor_eq_pickColor pc e1, getColor_eq_pickColor pc e2]
    refine pickColor_mono _ _ ?_ h12
    rw [idx_zip_cutoffs]
    decide
  · intro hne
    fin_cases hpc <;>
      first
      | (exact absurd rfl hne)
      | norm_num [getColorCutoffs, getColorThresholds, List.chain'_cons,
          List.chain'_singleton]
  · intro h6
    fin_cases hpc <;>
      first
      | (exfalso; omega)
      | norm_num [getColorCutoffs, getColorThresholds, List.chain'_cons,
          List.chain'_singleton]

/-- Claim C9 witness: at 2 players, a concrete colour lies in the class
list, the band is monotone between 10 and 55, the cutoffs strictly
decrease; at 6 players the cutoffs are non-increasing. -/
theorem C9_witness :
    getColor 2 (55 : ℚ) ∈ colorClasses
    ∧ colorIndex (getColor 2 10) ≤ colorIndex (getColor 2 55)
    ∧ (getColorCutoffs 2).Chain' (· > ·)
    ∧ (getColorCutoffs 6).Chain' (· ≥ ·) :=
  ⟨(C9_amended_color_bands 2 (by decide)).1 55,
   (C9_amended_color_bands 2 (by decide)).2.1 10 55 (by norm_num),
   (C9_amended_color_bands 2 (by decide)).2.2.1 (by norm_num),
   (C9_amended_color_bands 6 (by decide)).2.2.2 rfl⟩

/-! ## Claim-side category mean (for the trend-chart claim) -/

/-- Claim-side value of one chart point's category entry: the arithmetic
mean of `equity * 100` over exactly those category hands whose `players_N`
entry exists in the artifact, formatted to one decimal place; `0` when no
hand of the category has an entry for that table size. -/
def meanSpec (data : Artifact) (players : ℕ) (hands : List String) : ℚ :=
  let included := hands.filter fun hand => (entryFor data players hand).isSome
  if 0 < included.length then
    toFixed1 ((included.map fun hand =>
        ((entryFor data players hand).map fun pd => pd.equity * 100).getD 0).sum
      / (included.length : ℚ))
  else 0

/-- The `sum`/`count` loop accumulates exactly the sum of `equity * 100`
over the hands with an entry, and their number. -/
theorem accumulate_eq_filter_sum (data : Artifact) (players : ℕ)
    (hands : List String) (a : ℚ) (n : ℕ) :
    hands.foldl
      (fun acc hand =>
        match entryFor data players hand with
        | some playerData => (acc.1 + playerData.equity * 100, acc.2 + 1)
        | none => acc)
      (a, n)
    = (a + ((hands.filter fun h => (entryFor data players h).isSome).map fun h =>
          ((entryFor data players h).map fun pd => pd.equity * 100).getD 0).sum,
       n + (hands.filter fun h => (entryFor data players h).isSome).length) := by
  induction hands generalizing a n with
  | nil => simp
  | cons hd tl ih =>
    rcases he : entryFor data players hd with _ | pd
    · simp only [List.foldl_cons, he]
      rw [ih]
      simp [he, List.filter_cons]
    · simp only [List.foldl_cons, he]
      rw [ih]
      simp only [List.filter_cons, he, Option.isSome_some, if_pos,
        List.map_cons, List.sum_cons, List.length_cons, Option.map_some',
        Option.getD_some, Prod.mk.injEq]
      exact ⟨by ring, by omega⟩

/-- Claim C10: `chartData` has exactly five points, one per players value
2, 3, 4, 5, 6 in ascending order, and every point's category values are the
claim-side means (`meanSpec`): the mean of `equity * 100` over exactly the
category hands with an entry for that table size, to one decimal place, and
0 when there is none. -/
theorem C10_chartData_points (data : Artifact) :
    (chartData data).map Prod.fst = [2, 3, 4, 5, 6]
    ∧ (chartData data).length = 5
    ∧ ∀ players cats, (players, cats) ∈ chartData data →
        cats = handCategories.map fun cat => (cat.1, meanSpec data players cat.2) := by
  refine ⟨rfl, rfl, ?_⟩
  intro players cats hmem
  simp only [chartData, List.mem_map] at hmem
  obtain ⟨pl, hpl, heq⟩ := hmem
  injection heq with hA hB
  subst hA
  subst hB
  apply List.map_congr_left
  intro cat hcat
  have hacc : accumulate data pl cat.2
      = (((cat.2.filter fun h => (entryFor data pl h).isSome).map fun h =>
            ((entryFor data pl h).map fun pd => pd.equity * 100).getD 0).sum,
         (cat.2.filter fun h => (entryFor data pl h).isSome).length) := by
    unfold accumulate
    rw [accumulate_eq_filter_sum]
    simp
  simp only [hacc, meanSpec]

/-- Claim C10 witness: on the artifact with no hands, the heads-up chart
point carries value 0 for all four categories. -/
theorem C10_witness :
    [("Premium Pairs", (0 : ℚ)), ("High Cards", 0), ("Mid Pairs", 0),
     ("Suited Connectors", 0)]
    = handCategories.map fun cat => (cat.1, meanSpec noHandsArtifact 2 cat.2) :=
  (C10_chartData_points noHandsArtifact).2.2 2 _ (List.Mem.head _)
